import Mathlib

/-!
Verification of the terrain-chunk rasterization engine
(zed_wrapper/src/nodelet/src/zed_terrain_mapping.cpp) against its
natural-language specification.

The C++ code is shallowly embedded: floating-point arithmetic is modelled
over the rationals, machine-integer conversions are modelled with explicit
wrap-arounds (mod 2^32 for uint32_t / int32_t, mod 2^8 for int8_t), and the
SDK collaborators (sl::Terrain, sl::TerrainChunk, sl::Dimension) are
abstracted as records carrying the values the engine reads from them, as the
spec places their internals out of scope.
-/

namespace ZedTM

/-- Embeds the C library function round(): nearest integer, ties rounded
away from zero. -/
def cround (x : ℚ) : ℤ := if 0 ≤ x then ⌊x + 1/2⌋ else -⌊-x + 1/2⌋

/-- Embeds C truncation toward zero, as performed by a cast from a
floating-point value to an integer type. -/
def ctrunc (x : ℚ) : ℤ := if 0 ≤ x then ⌊x⌋ else ⌈x⌉

/-- Embeds conversion of an integer value to uint32_t (reduction
mod 2^32). -/
def u32 (z : ℤ) : ℕ := (z % 2 ^ 32).toNat

/-- Embeds reinterpretation of an integer value as a two's-complement
int32_t. -/
def i32Of (z : ℤ) : ℤ := (z + 2 ^ 31) % 2 ^ 32 - 2 ^ 31

/-- Embeds conversion of an integer value to a two's-complement int8_t,
as in static_cast of an integral value to int8_t. -/
def toInt8 (z : ℤ) : ℤ := (z + 128) % 256 - 128

/-- Embeds the comparison sqrt dSq > r on nonnegative dSq without taking
the square root: over the reals, sqrt dSq > r holds iff r < 0 or
r * r < dSq.  Used for the local-radius distance gate
(zed_terrain_mapping.cpp lines 413-417). -/
def sqrtGt (dSq r : ℚ) : Bool := decide (r < 0 ∨ r * r < dSq)

/-- One terrain cell as the engine reads it from a chunk: validity flag
(chunk.isCellValid), success flag and result of the chunk-local index to
coordinate conversion (dim.index2x_y, which reports failure by returning
a nonzero value), and the three per-cell samples (sl::ELEVATION,
sl::TRAVERSABILITY_COST, sl::COLOR). -/
structure Cell where
  valid : Bool
  idxOk : Bool
  xm : ℚ
  ym : ℚ
  elevation : ℚ
  cost : ℚ
  color : ℚ
deriving DecidableEq

/-- Parameters in scope during the per-cell loop of publishLocalMaps:
camera position in map frame, raster origin, raster cell dimensions
(uint32_t values, carried as naturals), grid resolution, local radius and
the height normalization / marker parameters. -/
structure LocalParams where
  camX : ℚ
  camY : ℚ
  mapMinX : ℚ
  mapMinY : ℚ
  mapRows : ℕ
  mapCols : ℕ
  res : ℚ
  radius : ℚ
  maxHeight : ℚ
  heightRes : ℚ
deriving DecidableEq

/-- Embeds uint32_t totCell = mapRows * mapCols (publishLocalMaps line
318): the product wraps mod 2^32. -/
def totCell (p : LocalParams) : ℕ := p.mapRows * p.mapCols % 2 ^ 32

/-- Embeds the guards and index conversion of the per-cell loop of
publishLocalMaps (lines 403-431): skip invalid cells, skip cells whose
chunk-index conversion fails, skip cells farther than the local radius
from the camera, convert to raster indices u, v by rounding (cast to
uint32_t), form mapIdx = u + v * mapCols in uint32_t arithmetic and drop
the cell when mapIdx is not below totCell.  Returns the raster index the
cell is written at, or none when the cell is dropped. -/
def localCellIndex (p : LocalParams) (c : Cell) : Option ℕ :=
  if c.valid = false then none
  else if c.idxOk = false then none
  else
    let dSq := (-c.xm - p.camY) * (-c.xm - p.camY) + (c.ym - p.camX) * (c.ym - p.camX)
    if sqrtGt dSq p.radius then none
    else
      let v := u32 (cround ((-c.xm - p.mapMinY) / p.res))
      let u := u32 (cround ((c.ym - p.mapMinX) / p.res))
      let mapIdx := (u + v * p.mapCols) % 2 ^ 32
      if totCell p ≤ mapIdx then none else some mapIdx

/-- Parameters in scope during the per-cell loop of publishGlobalMaps:
the current global raster origin and cell dimensions (info.width =
mapCols, info.height = mapRows), grid resolution and normalization
parameters. -/
structure GlobalParams where
  mapMinX : ℚ
  mapMinY : ℚ
  mapRows : ℕ
  mapCols : ℕ
  res : ℚ
  maxHeight : ℚ
  heightRes : ℚ
deriving DecidableEq

/-- Embeds the guards and index conversion of the per-cell loop of
publishGlobalMaps (lines 630-648): skip cells whose chunk-index
conversion fails; u and v are computed by rounding, cast to uint32_t and
stored in int variables (a two's-complement reinterpretation); mapIdx =
u + v * mapCols is computed in the unsigned arithmetic forced by the
uint32_t operand and stored in an int; the cell is dropped when u < 0,
v < 0, u > width, v > height, mapIdx < 0 or mapIdx is not below
mapCols * mapRows (a uint32_t product). -/
def globalCellIndex (p : GlobalParams) (c : Cell) : Option ℕ :=
  if c.idxOk = false then none
  else
    let u := i32Of (cround ((c.ym - p.mapMinX) / p.res))
    let v := i32Of (cround ((-c.xm - p.mapMinY) / p.res))
    let mapIdx := i32Of (u + v * (p.mapCols : ℤ))
    if u < 0 ∨ v < 0 ∨ (p.mapCols : ℤ) < u ∨ (p.mapRows : ℤ) < v ∨
        mapIdx < 0 ∨ ((p.mapRows * p.mapCols % 2 ^ 32 : ℕ) : ℤ) ≤ mapIdx
    then none else some mapIdx.toNat

/-- Embeds the height-raster value computation, identical in
publishLocalMaps line 441 and publishGlobalMaps line 616:
static_cast of fabs(round(height / mMapMaxHeight) * 100) to int8_t.
Note the source applies round before multiplying by 100. -/
def heightRasterValue (elev maxH : ℚ) : ℤ :=
  toInt8 (ctrunc |((cround (elev / maxH) : ℤ) : ℚ) * 100|)

/-- Embeds the cost-raster value computation, identical in
publishLocalMaps line 435 and publishGlobalMaps line 617: static_cast of
cost * 100 to int8_t (truncation toward zero). -/
def costRasterValue (cost : ℚ) : ℤ := toInt8 (ctrunc (cost * 100))

/-- Modelled from the spec: the normalized height value the spec
prescribes, round(abs(elevation) / maxHeight * 100).  Kept separate from
heightRasterValue, which embeds the source, so the two can be
compared. -/
def specHeightNorm (elev maxH : ℚ) : ℤ := cround (|elev| / maxH * 100)

/-- Modelled from the spec: the normalized cost value the spec
prescribes, round(cost * 100).  Kept separate from costRasterValue,
which embeds the source, so the two can be compared. -/
def specCostNorm (cost : ℚ) : ℤ := cround (cost * 100)

/-- Embeds the global per-cell height value (publishGlobalMaps lines
610-628): -1 for an invalid cell, otherwise the shared height-raster
normalization.  The source's isfinite guards there test an int and never
fire. -/
def globHeightNorm (c : Cell) (maxH : ℚ) : ℤ :=
  if c.valid then heightRasterValue c.elevation maxH else -1

/-- Embeds the global per-cell cost value (publishGlobalMaps lines
610-628): -1 for an invalid cell, otherwise the shared cost
normalization. -/
def globCostNorm (c : Cell) : ℤ :=
  if c.valid then costRasterValue c.cost else -1

/-- Embeds a 4-float write into a packed point-cloud buffer at point
index idx (fields x, y, z, rgb).  A z value of none models the NaN the
global path stores for an invalid cell. -/
def pcWrite (pc : List (Option ℚ)) (idx : ℕ) (x y z w : Option ℚ) : List (Option ℚ) :=
  ((((pc.set (idx * 4) x).set (idx * 4 + 1) y).set (idx * 4 + 2) z).set (idx * 4 + 3) w)

/-- Embeds the cube-list column emitted for one cell (publishLocalMaps
lines 462-489): col_count = ceil(fabs(height) / heightRes) stacked points
at z = i * heightRes for i = 1..col_count, negated when the elevation is
negative. -/
def cubeColumn (x y h hr : ℚ) : List (ℚ × ℚ × ℚ) :=
  (List.range (⌈|h| / hr⌉).toNat).map (fun i =>
    (x, y, if h < 0 then -(((i : ℚ) + 1) * hr) else ((i : ℚ) + 1) * hr))

/-- The output buffers one rasterization cycle populates: height raster,
cost raster, packed point buffer, cube-list marker points and discrete
box markers (stored as raster index, x, y, elevation). -/
structure Bufs where
  heightData : List ℤ
  costData : List ℤ
  pcData : List (Option ℚ)
  cubes : List (ℚ × ℚ × ℚ)
  boxes : List (ℕ × ℚ × ℚ × ℚ)
deriving DecidableEq

/-- Subscriber counts read at the start of localTerrainCallback (lines
203-207). -/
structure LocalSubs where
  heightSub : ℕ
  costSub : ℕ
  cloudSub : ℕ
  mrkSub : ℕ
  mrksSub : ℕ
deriving DecidableEq

/-- Embeds the body of the per-cell loop of publishLocalMaps (lines
403-522).  Each product write keeps the conjunction of the nested
subscriber guards it sits under in the source: cost write under
costSub > 0; height write under the product group guard and
heightSub > 0; point write additionally under the color group guard and
cloudSub > 0; cube-list append under mrkSub > 0; box append under
mrksSub > 0 and a nonzero elevation. -/
def localCellStep (p : LocalParams) (s : LocalSubs) (b : Bufs) (c : Cell) : Bufs :=
  match localCellIndex p c with
  | none => b
  | some idx =>
    let grp := 0 < s.cloudSub ∨ 0 < s.heightSub ∨ 0 < s.mrkSub ∨ 0 < s.mrksSub
    let colorGrp := 0 < s.cloudSub ∨ 0 < s.mrkSub ∨ 0 < s.mrksSub
    { b with
      costData := if 0 < s.costSub then b.costData.set idx (costRasterValue c.cost)
                  else b.costData,
      heightData := if grp ∧ 0 < s.heightSub then
                      b.heightData.set idx (heightRasterValue c.elevation p.maxHeight)
                    else b.heightData,
      pcData := if grp ∧ colorGrp ∧ 0 < s.cloudSub then
                  pcWrite b.pcData idx (some (c.ym + p.res / 2)) (some (-c.xm + p.res / 2))
                    (some c.elevation) (some c.color)
                else b.pcData,
      cubes := if grp ∧ colorGrp ∧ 0 < s.mrkSub then
                 b.cubes ++ cubeColumn (c.ym + p.res / 2) (-c.xm + p.res / 2) c.elevation p.heightRes
               else b.cubes,
      boxes := if grp ∧ colorGrp ∧ 0 < s.mrksSub ∧ 0 < |c.elevation| then
                 b.boxes ++ [(idx, c.ym + p.res / 2, -c.xm + p.res / 2, c.elevation)]
               else b.boxes }

/-- Embeds one full local rasterization cycle over a list of cells
(publishLocalMaps lines 356-523): both rasters start freshly assigned to
totCell cells of -1; the point buffer is reused from the previous cycle
(passed in as pcInit); markers start empty. -/
def localCycle (p : LocalParams) (s : LocalSubs) (cells : List Cell)
    (pcInit : List (Option ℚ)) : Bufs :=
  cells.foldl (localCellStep p s)
    { heightData := List.replicate (totCell p) (-1)
      costData := List.replicate (totCell p) (-1)
      pcData := pcInit
      cubes := []
      boxes := [] }

/-- Subscriber counts read at the start of globalTerrainCallback (lines
754-761). -/
structure GlobalSubs where
  heightImgSub : ℕ
  colorImgSub : ℕ
  costImgSub : ℕ
  heightMapSub : ℕ
  costMapSub : ℕ
  cloudSub : ℕ
  mrkSub : ℕ
deriving DecidableEq

/-- Embeds uint32_t run (globalTerrainCallback line 763): the sum of all
global product subscriber counts. -/
def globalRun (s : GlobalSubs) : ℕ :=
  s.heightImgSub + s.colorImgSub + s.costImgSub + s.heightMapSub + s.costMapSub +
    s.cloudSub + s.mrkSub

/-- Embeds the body of the per-cell loop of publishGlobalMaps (lines
608-666): when the cell survives the index guards, the height and cost
rasters are written unconditionally with the per-cell values (-1 for an
invalid cell), and the point buffer is written when the cloud or the
cube-marker product has a subscriber, the z field holding NaN (none) for
an invalid cell. -/
def globalCellStep (p : GlobalParams) (s : GlobalSubs) (b : Bufs) (c : Cell) : Bufs :=
  match globalCellIndex p c with
  | none => b
  | some idx =>
    { b with
      heightData := b.heightData.set idx (globHeightNorm c p.maxHeight),
      costData := b.costData.set idx (globCostNorm c),
      pcData := if 0 < s.cloudSub ∨ 0 < s.mrkSub then
                  pcWrite b.pcData idx (some (c.ym + p.res / 2)) (some (-c.xm + p.res / 2))
                    (if c.valid then some c.elevation else none) (some c.color)
                else b.pcData }

/-- Embeds the per-cell loop of publishGlobalMaps over a list of cells:
unlike the local path, the buffers persist from the previous cycle. -/
def globalCycle (p : GlobalParams) (s : GlobalSubs) (cells : List Cell) (b : Bufs) : Bufs :=
  cells.foldl (globalCellStep p s) b

/-- Embeds the run > 0 gate of globalTerrainCallback (line 765): the
rasterization work is performed only when at least one global product has
a subscriber. -/
def globalCycleGated (p : GlobalParams) (s : GlobalSubs) (cells : List Cell) (b : Bufs) : Bufs :=
  if 0 < globalRun s then globalCycle p s cells b else b

/-- Which products a cycle publishes. -/
structure PublishSet where
  height : Bool
  cost : Bool
  cloud : Bool
  cubes : Bool
  boxes : Bool
deriving DecidableEq

/-- Embeds the publish guards at the end of publishLocalMaps (lines
527-545): each product is published exactly when its subscriber count is
positive. -/
def localPublishSet (s : LocalSubs) : PublishSet :=
  ⟨decide (0 < s.heightSub), decide (0 < s.costSub), decide (0 < s.cloudSub),
    decide (0 < s.mrkSub), decide (0 < s.mrksSub)⟩

/-- Embeds the publish guards at the end of publishGlobalMaps (lines
717-731); the global path has no discrete-box product. -/
def globalPublishSet (s : GlobalSubs) : PublishSet :=
  ⟨decide (0 < s.heightMapSub), decide (0 < s.costMapSub), decide (0 < s.cloudSub),
    decide (0 < s.mrkSub), false⟩

/-- Sensor-frame bounding box of a chunk (sl::Dimension) or of the union
of several chunks. -/
structure Bounds where
  xMin : ℚ
  yMin : ℚ
  xMax : ℚ
  yMax : ℚ
deriving DecidableEq

/-- The local raster window computed by publishLocalMaps lines 303-308:
the union chunk bounding box (given in sensor-frame coordinates
minX, minY, maxX, maxY) clamped against the radius window around the
camera, with the sensor-to-map axis swap applied (X = ym, Y = -xm). -/
structure Window where
  mapMinX : ℚ
  mapMaxX : ℚ
  mapMinY : ℚ
  mapMaxY : ℚ
deriving DecidableEq

/-- Embeds publishLocalMaps lines 303-308. -/
def localWindow (camX camY radius minX minY maxX maxY : ℚ) : Window :=
  { mapMinX := if camX - radius < minY then minY else camX - radius
    mapMaxX := if maxY < camX + radius then maxY else camX + radius
    mapMinY := if camY - radius < -maxX then -maxX else camY - radius
    mapMaxY := if -minX < camY + radius then -minX else camY + radius }

/-- Embeds publishLocalMaps lines 312-316: the raster dimensions (rows,
cols) computed from the window spans, each a uint32_t cast of the ceiling
of span / resolution, plus one. -/
def localMapDims (w : Window) (res : ℚ) : ℕ × ℕ :=
  (u32 ⌈|w.mapMaxY - w.mapMinY| / res⌉ + 1, u32 ⌈|w.mapMaxX - w.mapMinX| / res⌉ + 1)

/-- The persistent global map state: raster metadata and data
(mGlobHeightMapMsg / mGlobCostMapMsg, which always share origin and
dimensions), the point-cloud message dimensions and packed buffer
(mGlobalHeightPointcloudMsg), and the whole-update flag
(mGlobMapWholeUpdate). -/
structure GlobMapState where
  width : ℕ
  height : ℕ
  res : ℚ
  originX : ℚ
  originY : ℚ
  heightData : List ℤ
  costData : List ℤ
  pcWidth : ℕ
  pcHeight : ℕ
  pcData : List (Option ℚ)
  wholeUpdate : Bool
deriving DecidableEq

/-- Embeds globalTerrainCallback lines 796-806: the sensor-frame bounds
corresponding to the current global raster extent, obtained by inverting
the axis swap (xm = -Y, ym = X). -/
def initBounds (g : GlobMapState) : Bounds :=
  let mapMinX := g.originX
  let mapMaxX := mapMinX + (g.width : ℚ) * g.res
  let mapMinY := g.originY
  let mapMaxY := mapMinY + (g.height : ℚ) * g.res
  ⟨-mapMaxY, mapMinX, -mapMinY, mapMaxX⟩

/-- Embeds one iteration of the chunk-limits loop of
globalTerrainCallback lines 811-835: each bound of the accumulator is
replaced when the chunk's bound exceeds it, and the resize flag records
whether any replacement fired. -/
def extendBounds (bf : Bounds × Bool) (d : Bounds) : Bounds × Bool :=
  let b := bf.1
  (⟨if d.xMin < b.xMin then d.xMin else b.xMin,
    if d.yMin < b.yMin then d.yMin else b.yMin,
    if b.xMax < d.xMax then d.xMax else b.xMax,
    if b.yMax < d.yMax then d.yMax else b.yMax⟩,
   bf.2 || decide (d.xMin < b.xMin) || decide (d.yMin < b.yMin) ||
     decide (b.xMax < d.xMax) || decide (b.yMax < d.yMax))

/-- Embeds the chunk-limits loop of globalTerrainCallback lines 806-835:
fold of extendBounds over the selected chunks' dimensions, starting from
the current raster's sensor-frame bounds and a cleared resize flag. -/
def chunkBounds (g : GlobMapState) (dims : List Bounds) : Bounds × Bool :=
  dims.foldl extendBounds (initBounds g, false)

/-- The terrain snapshot interface the engine consumes
(sl::Terrain): all valid chunk keys, the keys updated since a given
timestamp, and the snapshot reference timestamp. -/
structure TerrainSnap where
  allValid : List ℕ
  updatedSince : ℕ → List ℕ
  refTS : ℕ

/-- Embeds initGlobalMapMsgs (lines 914-961): recompute rows and cols
from the metric spans (uint32_t casts of ceilings, plus one), reset both
raster buffers to rows * cols cells of -1 (the product taken in uint32_t
arithmetic), set the origin to minus half the metric spans, set the
whole-update flag, and resize the point-cloud buffer only when the
message dimensions differ from the new raster dimensions.  The resize
follows sensor_msgs::PointCloud2Modifier::resize: the byte vector keeps
its existing prefix and zero-fills growth, and the message becomes a
single row of rows * cols points. -/
def initGlobalMapMsgs (g : GlobMapState) (mapWm mapHm : ℚ) : GlobMapState :=
  let mapRows := u32 ⌈mapHm / g.res⌉ + 1
  let mapCols := u32 ⌈mapWm / g.res⌉ + 1
  let n := mapRows * mapCols % 2 ^ 32
  let g1 : GlobMapState :=
    { g with width := mapCols, height := mapRows,
             originX := -(mapWm / 2), originY := -(mapHm / 2),
             heightData := List.replicate n (-1),
             costData := List.replicate n (-1),
             wholeUpdate := true }
  if g.pcWidth ≠ mapCols ∨ g.pcHeight ≠ mapRows then
    let pcNew := g.pcData.take (4 * n) ++ List.replicate (4 * n - g.pcData.length) (some 0)
    if g.pcHeight = 1 then { g1 with pcWidth := n, pcData := pcNew }
    else if g.pcWidth = 1 then { g1 with pcHeight := n, pcData := pcNew }
    else { g1 with pcWidth := n, pcHeight := 1, pcData := pcNew }
  else g1

/-- Embeds the resize arbitration of globalTerrainCallback lines 794-856:
compute the union bounds of the selected chunks (given as the list of
their sensor-frame dimensions, alongside their keys); when any bound
exceeded the current raster bounds, reinitialize the global messages from
the new metric spans (note the argument swap: the sensor-frame Y span
becomes the map width), re-select all valid chunks, clear the
whole-update flag and override the origin with the sensor-to-map
converted minimum corner.  Returns the updated state and the final chunk
selection. -/
def globalResizeStep (g : GlobMapState) (snap : TerrainSnap)
    (selDims : List Bounds) (selKeys : List ℕ) : GlobMapState × List ℕ :=
  let r := chunkBounds g selDims
  let b := r.1
  if r.2 then
    let g1 := initGlobalMapMsgs g (b.yMax - b.yMin) (b.xMax - b.xMin)
    ({ g1 with wholeUpdate := false, originX := b.yMin, originY := -b.xMax },
     snap.allValid)
  else (g, selKeys)

/-- Embeds the chunk-selection step of globalTerrainCallback lines
780-790: under the whole-update flag select all valid chunks and clear
the flag, otherwise select the chunks updated since the remembered
baseline; either way the baseline advances to the snapshot reference
timestamp.  Returns (selected keys, new flag, new baseline). -/
def selectChunks (wholeUpdate : Bool) (lastTS : ℕ) (t : TerrainSnap) :
    List ℕ × Bool × ℕ :=
  if wholeUpdate then (t.allValid, false, t.refTS)
  else (t.updatedSince lastTS, wholeUpdate, t.refTS)

/-- A raster message as returned by the map services: the data payload
stands in for the whole nav_msgs::OccupancyGrid. -/
structure MapMsg where
  data : List ℤ
deriving DecidableEq

/-- The node state the map services read: the mapping-ready flag, the
default-map selector and the four most recently published rasters. -/
structure NodeState where
  mappingReady : Bool
  defaultMap : ℤ
  locHeightMapMsg : MapMsg
  locCostMapMsg : MapMsg
  globHeightMapMsg : MapMsg
  globCostMapMsg : MapMsg
deriving DecidableEq

/-- Embeds on_get_loc_height_map (lines 983-997): fail leaving the
response untouched when mapping is not ready, otherwise return the local
height raster. -/
def on_get_loc_height_map (s : NodeState) (res : MapMsg) : Bool × MapMsg :=
  if s.mappingReady = false then (false, res) else (true, s.locHeightMapMsg)

/-- Embeds on_get_loc_cost_map (lines 999-1013): fail leaving the
response untouched when mapping is not ready, otherwise return the local
cost raster.  This handler is defined in the source but never registered
for any service. -/
def on_get_loc_cost_map (s : NodeState) (res : MapMsg) : Bool × MapMsg :=
  if s.mappingReady = false then (false, res) else (true, s.locCostMapMsg)

/-- Embeds on_get_glob_height_map (lines 1015-1029). -/
def on_get_glob_height_map (s : NodeState) (res : MapMsg) : Bool × MapMsg :=
  if s.mappingReady = false then (false, res) else (true, s.globHeightMapMsg)

/-- Embeds on_get_glob_cost_map (lines 1031-1045). -/
def on_get_glob_cost_map (s : NodeState) (res : MapMsg) : Bool × MapMsg :=
  if s.mappingReady = false then (false, res) else (true, s.globCostMapMsg)

/-- Embeds on_get_static_map (lines 963-981): serve the global height or
cost raster according to the default-map selector. -/
def on_get_static_map (s : NodeState) (res : MapMsg) : Bool × MapMsg :=
  if s.mappingReady = false then (false, res)
  else if s.defaultMap = 0 then (true, s.globHeightMapMsg)
  else (true, s.globCostMapMsg)

/-- Embeds the service registrations of init() lines 91-95.  Note the
source wires the local_cost_map service to on_get_loc_height_map. -/
def serviceHandler : String → NodeState → MapMsg → Bool × MapMsg
  | "static_map" => on_get_static_map
  | "local_height_map" => on_get_loc_height_map
  | "local_cost_map" => on_get_loc_height_map
  | "global_height_map" => on_get_glob_height_map
  | "global_cost_map" => on_get_glob_cost_map
  | _ => fun _ res => (false, res)

/-! Concrete instances used to exercise the embedded functions on
specific inputs. -/

/-- A valid cell at the sensor-frame origin with elevation 1. -/
def cellOrigin : Cell := ⟨true, true, 0, 0, 1, 0, 0⟩

/-- A valid cell with cost 0.73. -/
def cellCost73 : Cell := ⟨true, true, 0, 0, 1, 73/100, 0⟩

/-- An invalid cell (no observation) at the sensor-frame origin. -/
def cellInvalid : Cell := ⟨false, true, 0, 0, 0, 0, 0⟩

/-- A valid cell at map-frame coordinate (5, 0), far from the origin. -/
def cellFar : Cell := ⟨true, true, 0, 5, 1, 0, 0⟩

/-- Local parameters: camera at the origin, 2 x 2 raster at resolution 1,
radius 10. -/
def lpSmall : LocalParams := ⟨0, 0, 0, 0, 2, 2, 1, 10, 4, 1⟩

/-- Local parameters: camera at the origin, 1 x 1 raster at resolution 1,
radius 1. -/
def lpTiny : LocalParams := ⟨0, 0, 0, 0, 1, 1, 1, 1, 4, 1⟩

/-- Global parameters: origin (0, 0), 1 x 1 raster at resolution 1. -/
def gpTiny : GlobalParams := ⟨0, 0, 1, 1, 1, 4, 1⟩

/-- Global subscriber counts: only the point-cloud product has a
subscriber. -/
def subsCloudOnly : GlobalSubs := ⟨0, 0, 0, 0, 0, 1, 0⟩

/-- Global subscriber counts: only the height raster has a subscriber. -/
def subsHeightOnly : GlobalSubs := ⟨0, 0, 0, 1, 0, 0, 0⟩

/-- Local subscriber counts: every local product has one subscriber. -/
def subsAllLocal : LocalSubs := ⟨1, 1, 1, 1, 1⟩

/-- One-cell buffers carrying leftover values 5 and 7 from a previous
cycle. -/
def bufsStale : Bufs := ⟨[5], [7], [], [], []⟩

/-- One-cell buffers in the freshly reset state. -/
def bufsFresh : Bufs := ⟨[-1], [-1], List.replicate 4 (some 0), [], []⟩

/-- A global map state: 2 x 2 raster at resolution 1 with origin (0, 0),
point buffer of 16 floats whose first float is the leftover value 7. -/
def globStale : GlobMapState :=
  ⟨2, 2, 1, 0, 0, List.replicate 4 (-1), List.replicate 4 (-1), 4, 1,
    some 7 :: List.replicate 15 (some 0), false⟩

/-- A chunk dimension protruding above the current bounds of globStale
(sensor-frame yMax 3 against the raster's yMax 2). -/
def dimProtruding : Bounds := ⟨-2, 0, 0, 3⟩

/-- A terrain snapshot with two valid chunks and no updated chunks. -/
def snapTwo : TerrainSnap := ⟨[5, 6], fun _ => [], 0⟩

/-- A ready node state whose four rasters hold distinct payloads. -/
def nodeReady : NodeState := ⟨true, 0, ⟨[1]⟩, ⟨[2]⟩, ⟨[3]⟩, ⟨[4]⟩⟩

/-- The same node state before mapping becomes ready. -/
def nodeNotReady : NodeState := ⟨false, 0, ⟨[1]⟩, ⟨[2]⟩, ⟨[3]⟩, ⟨[4]⟩⟩

/-! Theorems settling the claims, with their witnesses and counterexamples. -/


/-- Claim C1: every cell written into a local or global raster lands at a
linear index below width * height; a cell whose converted index falls
outside this range is dropped (the index function returns none), so no
out-of-range write occurs. -/
theorem C1_raster_index_in_range :
    (∀ (p : LocalParams) (c : Cell) (idx : ℕ),
      localCellIndex p c = some idx → idx < p.mapRows * p.mapCols) ∧
    (∀ (q : GlobalParams) (c : Cell) (idx : ℕ),
      globalCellIndex q c = some idx → idx < q.mapRows * q.mapCols) := by
  constructor
  · intro p c idx h
    simp only [localCellIndex] at h
    split at h
    · exact absurd h (by simp)
    split at h
    · exact absurd h (by simp)
    split at h
    · exact absurd h (by simp)
    split at h
    · exact absurd h (by simp)
    · simp only [Option.some.injEq] at h
      subst h
      have hm : totCell p ≤ p.mapRows * p.mapCols := Nat.mod_le _ _
      omega
  · intro q c idx h
    simp only [globalCellIndex] at h
    split at h
    · exact absurd h (by simp)
    split at h
    · exact absurd h (by simp)
    · simp only [Option.some.injEq] at h
      subst h
      rename_i hguard
      push_neg at hguard
      have h5 := hguard.2.2.2.2.1
      have h6 := hguard.2.2.2.2.2
      have hm : q.mapRows * q.mapCols % 2 ^ 32 ≤ q.mapRows * q.mapCols := Nat.mod_le _ _
      omega

theorem C1_witness :
    localCellIndex lpSmall cellOrigin = some 0 ∧ (0 < lpSmall.mapRows * lpSmall.mapCols) := by
  have he : localCellIndex lpSmall cellOrigin = some 0 := by
    norm_num [localCellIndex, sqrtGt, u32, cround, totCell, lpSmall, cellOrigin]
  exact ⟨he, C1_raster_index_in_range.1 lpSmall cellOrigin 0 he⟩



/-- Claim C2 (code bug): the source computes the height raster value as
fabs(round(height / maxHeight) * 100), rounding before scaling, so a cell
with elevation 2 and maxHeight 4 is written as 100, while the specified
normalization round(abs(elevation) / maxHeight * 100) gives 50. -/
theorem C2_height_normalization_bug :
    heightRasterValue 2 4 = 100 ∧ specHeightNorm 2 4 = 50 ∧
      heightRasterValue 2 4 ≠ specHeightNorm 2 4 := by
  refine ⟨?_, ?_, ?_⟩
  · norm_num [heightRasterValue, toInt8, ctrunc, cround]
  · norm_num [specHeightNorm, cround]
  · norm_num [heightRasterValue, specHeightNorm, toInt8, ctrunc, cround]

/-- Claim C3 counterexample: the source truncates cost * 100 instead of
rounding it, so a cost sample of 0.736 is written as 73 while the claimed
round(cost * 100) is 74. -/
theorem C3_cost_rounding_counterexample :
    costRasterValue (736/1000) = 73 ∧ specCostNorm (736/1000) = 74 ∧
      costRasterValue (736/1000) ≠ specCostNorm (736/1000) := by
  refine ⟨?_, ?_, ?_⟩
  · norm_num [costRasterValue, toInt8, ctrunc]
  · norm_num [specCostNorm, cround]
  · norm_num [costRasterValue, specCostNorm, toInt8, ctrunc, cround]

/-- Claim C3 (amended): for every cell processed into the local raster
with cost in the unit interval, the value written into the cost raster is
the truncation toward zero of cost * 100 (the int8 cast is the identity
on the resulting range); a cost sample of 0.73 yields 73. -/
theorem C3_cost_truncation (p : LocalParams) (s : LocalSubs) (b : Bufs) (c : Cell)
    (idx : ℕ) (hidx : localCellIndex p c = some idx) (hsub : 0 < s.costSub)
    (hlen : idx < b.costData.length) (h0 : 0 ≤ c.cost) (h1 : c.cost ≤ 1) :
    (localCellStep p s b c).costData[idx]? = some (ctrunc (c.cost * 100)) := by
  have hv : costRasterValue c.cost = ctrunc (c.cost * 100) := by
    have h100 : (0:ℚ) ≤ c.cost * 100 := by positivity
    have hup : c.cost * 100 ≤ 100 := by nlinarith
    have hfl : ctrunc (c.cost * 100) = ⌊c.cost * 100⌋ := by simp [ctrunc, h100]
    have hlb : (0:ℤ) ≤ ⌊c.cost * 100⌋ := Int.floor_nonneg.mpr h100
    have hub : ⌊c.cost * 100⌋ ≤ 100 := by
      have := Int.floor_le_floor hup
      simpa using this
    simp only [costRasterValue, hfl, toInt8]
    omega
  simp only [localCellStep, hidx, hsub, if_pos]
  rw [List.getElem?_set_eq_of_lt _ hlen, hv]

theorem C3_cost_truncation_witness :
    localCellIndex lpSmall cellCost73 = some 0 ∧
      (localCellStep lpSmall subsAllLocal bufsFresh cellCost73).costData[0]? = some 73 := by
  have hidx : localCellIndex lpSmall cellCost73 = some 0 := by
    norm_num [localCellIndex, sqrtGt, u32, cround, totCell, lpSmall, cellCost73]
  have h := C3_cost_truncation lpSmall subsAllLocal bufsFresh cellCost73 0 hidx
    (by norm_num [subsAllLocal]) (by norm_num [bufsFresh])
    (by norm_num [cellCost73]) (by norm_num [cellCost73])
  refine ⟨hidx, ?_⟩
  rw [h]
  norm_num [cellCost73, ctrunc]



/-- Claim C4: a cell whose map-frame coordinate (X, Y) = (ym, -xm) lies
at Euclidean distance greater than the local radius from the camera
position is discarded before any write into the local raster. -/
theorem C4_local_radius_gate (p : LocalParams) (c : Cell) (_hr : 0 ≤ p.radius)
    (hd : p.radius * p.radius <
      (c.ym - p.camX) * (c.ym - p.camX) + (-c.xm - p.camY) * (-c.xm - p.camY)) :
    localCellIndex p c = none := by
  have hg : sqrtGt ((-c.xm - p.camY) * (-c.xm - p.camY) + (c.ym - p.camX) * (c.ym - p.camX))
      p.radius = true := by
    simp only [sqrtGt, decide_eq_true_eq]
    right; linarith
  simp only [localCellIndex, hg]
  split
  · rfl
  split
  · rfl
  · rfl

theorem C4_local_radius_gate_witness :
    (0:ℚ) ≤ lpTiny.radius ∧
      lpTiny.radius * lpTiny.radius <
        (cellFar.ym - lpTiny.camX) * (cellFar.ym - lpTiny.camX) +
          (-cellFar.xm - lpTiny.camY) * (-cellFar.xm - lpTiny.camY) ∧
      localCellIndex lpTiny cellFar = none := by
  refine ⟨by norm_num [lpTiny], by norm_num [lpTiny, cellFar], ?_⟩
  exact C4_local_radius_gate lpTiny cellFar (by norm_num [lpTiny]) (by norm_num [lpTiny, cellFar])

/-- Claim C6: with the whole-update flag set the selection step picks all
valid chunks, sets the baseline to the snapshot reference timestamp and
clears the flag; otherwise it picks the chunks updated since the last
baseline and advances the baseline to the snapshot reference
timestamp. -/
theorem C6_chunk_selection (lastTS : ℕ) (t : TerrainSnap) :
    selectChunks true lastTS t = (t.allValid, false, t.refTS) ∧
    selectChunks false lastTS t = (t.updatedSince lastTS, false, t.refTS) :=
  ⟨rfl, rfl⟩

/-- Claim C7: the local raster dimensions are the uint32 ceilings of the
window spans over the resolution, plus one, in each axis; the scenario
with chunk bounding box from (0,0) to (1,1), camera at the origin and
resolution 0.5 yields a 3 x 3 raster. -/
theorem C7_local_raster_dims :
    (∀ (w : Window) (r : ℚ), 0 < r →
      ⌈|w.mapMaxY - w.mapMinY| / r⌉ < 2 ^ 32 → ⌈|w.mapMaxX - w.mapMinX| / r⌉ < 2 ^ 32 →
      localMapDims w r =
        ((⌈|w.mapMaxY - w.mapMinY| / r⌉).toNat + 1, (⌈|w.mapMaxX - w.mapMinX| / r⌉).toNat + 1)) ∧
    localMapDims (localWindow 0 0 10 0 0 1 1) (1/2) = (3, 3) := by
  constructor
  · intro w r hr h1 h2
    have e1 : 0 ≤ ⌈|w.mapMaxY - w.mapMinY| / r⌉ :=
      Int.ceil_nonneg (div_nonneg (abs_nonneg _) hr.le)
    have e2 : 0 ≤ ⌈|w.mapMaxX - w.mapMinX| / r⌉ :=
      Int.ceil_nonneg (div_nonneg (abs_nonneg _) hr.le)
    simp only [localMapDims, u32]
    rw [Int.emod_eq_of_lt e1 h1, Int.emod_eq_of_lt e2 h2]
  · norm_num [localMapDims, localWindow, u32]
    decide

theorem C7_local_raster_dims_witness :
    (0:ℚ) < 1/2 ∧ localMapDims ⟨0, 1, -1, 0⟩ (1/2) = (3, 3) := by
  refine ⟨by norm_num, ?_⟩
  rw [C7_local_raster_dims.1 ⟨0, 1, -1, 0⟩ (1/2) (by norm_num) (by norm_num) (by norm_num)]
  norm_num
  decide

/-- Claim C10 (code bug): init() registers on_get_loc_height_map as the
handler of the local_cost_map service, so a query with mapping active
succeeds but returns the local height raster instead of the cost raster
that the unregistered handler on_get_loc_cost_map would return; with
mapping inactive the query fails leaving the response untouched. -/
theorem C10_local_cost_map_service_bug :
    serviceHandler "local_cost_map" nodeReady ⟨[]⟩ = (true, nodeReady.locHeightMapMsg) ∧
    nodeReady.locHeightMapMsg ≠ nodeReady.locCostMapMsg ∧
    on_get_loc_cost_map nodeReady ⟨[]⟩ = (true, nodeReady.locCostMapMsg) ∧
    serviceHandler "local_cost_map" nodeNotReady ⟨[]⟩ = (false, ⟨[]⟩) := by
  refine ⟨?_, ?_, ?_, ?_⟩
  · norm_num [serviceHandler, on_get_loc_height_map, nodeReady]
  · norm_num [nodeReady]
  · norm_num [on_get_loc_cost_map, nodeReady]
  · norm_num [serviceHandler, on_get_loc_height_map, nodeNotReady]



/-- Claim C9 counterexample: in a global cycle where the height and cost
rasters have zero subscribers but the point cloud has one, the per-cell
work still writes both rasters (publishGlobalMaps lines 651-652 are
unconditional), so their buffers are modified. -/
theorem C9_global_gating_counterexample :
    subsCloudOnly.heightMapSub = 0 ∧ subsCloudOnly.costMapSub = 0 ∧
    (globalCycleGated gpTiny subsCloudOnly [cellOrigin] bufsFresh).heightData = [0] ∧
    (globalCycleGated gpTiny subsCloudOnly [cellOrigin] bufsFresh).costData = [0] ∧
    bufsFresh.heightData = [-1] ∧ bufsFresh.costData = [-1] := by
  refine ⟨rfl, rfl, ?_, ?_, rfl, rfl⟩ <;>
    norm_num [globalCycleGated, globalRun, globalCycle, globalCellStep, globalCellIndex,
      i32Of, cround, globHeightNorm, globCostNorm, heightRasterValue, costRasterValue,
      toInt8, ctrunc, pcWrite, subsCloudOnly, gpTiny, cellOrigin, bufsFresh]

/-- Claim C9 (amended): publish calls are gated per product on both
paths, and per-cell computation is gated per product on the local path:
with zero subscribers for a local product its buffer is left unmodified
by the per-cell step; the global path skips all work only when every
global product has zero subscribers. -/
theorem C9_subscriber_gating :
    (∀ (p : LocalParams) (s : LocalSubs) (b : Bufs) (c : Cell),
      (s.costSub = 0 → (localCellStep p s b c).costData = b.costData) ∧
      (s.heightSub = 0 → (localCellStep p s b c).heightData = b.heightData) ∧
      (s.cloudSub = 0 → (localCellStep p s b c).pcData = b.pcData) ∧
      (s.mrkSub = 0 → (localCellStep p s b c).cubes = b.cubes) ∧
      (s.mrksSub = 0 → (localCellStep p s b c).boxes = b.boxes)) ∧
    (∀ (q : GlobalParams) (s : GlobalSubs) (cells : List Cell) (b : Bufs),
      globalRun s = 0 → globalCycleGated q s cells b = b) ∧
    (∀ s : LocalSubs,
      (s.heightSub = 0 → (localPublishSet s).height = false) ∧
      (s.costSub = 0 → (localPublishSet s).cost = false) ∧
      (s.cloudSub = 0 → (localPublishSet s).cloud = false) ∧
      (s.mrkSub = 0 → (localPublishSet s).cubes = false) ∧
      (s.mrksSub = 0 → (localPublishSet s).boxes = false)) ∧
    (∀ s : GlobalSubs,
      (s.heightMapSub = 0 → (globalPublishSet s).height = false) ∧
      (s.costMapSub = 0 → (globalPublishSet s).cost = false) ∧
      (s.cloudSub = 0 → (globalPublishSet s).cloud = false) ∧
      (s.mrkSub = 0 → (globalPublishSet s).cubes = false)) := by
  refine ⟨?_, ?_, ?_, ?_⟩
  · intro p s b c
    refine ⟨?_, ?_, ?_, ?_, ?_⟩ <;> intro h <;>
      cases hidx : localCellIndex p c <;> simp [localCellStep, hidx, h]
  · intro q s cells b h
    simp [globalCycleGated, h]
  · intro s
    refine ⟨?_, ?_, ?_, ?_, ?_⟩ <;> intro h <;> simp [localPublishSet, h]
  · intro s
    refine ⟨?_, ?_, ?_, ?_⟩ <;> intro h <;> simp [globalPublishSet, h]

theorem C9_subscriber_gating_witness :
    (localCellStep lpSmall ⟨0, 0, 0, 0, 0⟩ bufsStale cellOrigin).costData = bufsStale.costData ∧
    globalCycleGated gpTiny ⟨0, 0, 0, 0, 0, 0, 0⟩ [cellOrigin] bufsStale = bufsStale := by
  exact ⟨(C9_subscriber_gating.1 lpSmall ⟨0, 0, 0, 0, 0⟩ bufsStale cellOrigin).1 rfl,
    C9_subscriber_gating.2.1 gpTiny ⟨0, 0, 0, 0, 0, 0, 0⟩ [cellOrigin] bufsStale rfl⟩



/-- The global per-cell step does not disturb raster entries at indices
the cell does not map to. -/
theorem globalCellStep_keeps (q : GlobalParams) (s : GlobalSubs) (b : Bufs) (c : Cell)
    (i : ℕ) (h : globalCellIndex q c ≠ some i) :
    (globalCellStep q s b c).heightData[i]? = b.heightData[i]? ∧
    (globalCellStep q s b c).costData[i]? = b.costData[i]? := by
  cases hidx : globalCellIndex q c with
  | none => simp [globalCellStep, hidx]
  | some j =>
    have hj : j ≠ i := fun e => h (e ▸ hidx)
    simp [globalCellStep, hidx, List.getElem?_set_ne hj]

/-- The global per-cell step preserves the raster buffer lengths. -/
theorem globalCellStep_length (q : GlobalParams) (s : GlobalSubs) (b : Bufs) (c : Cell) :
    (globalCellStep q s b c).heightData.length = b.heightData.length ∧
    (globalCellStep q s b c).costData.length = b.costData.length := by
  cases hidx : globalCellIndex q c <;> simp [globalCellStep, hidx]

/-- The global cycle preserves the raster buffer lengths. -/
theorem globalCycle_length (q : GlobalParams) (s : GlobalSubs) (cells : List Cell) :
    ∀ b : Bufs, (globalCycle q s cells b).heightData.length = b.heightData.length ∧
      (globalCycle q s cells b).costData.length = b.costData.length := by
  induction cells with
  | nil => intro b; exact ⟨rfl, rfl⟩
  | cons c cs ih =>
    intro b
    have h1 := globalCellStep_length q s b c
    have h2 := ih (globalCellStep q s b c)
    simp only [globalCycle, List.foldl_cons] at h2 ⊢
    omega

/-- When every cell of a list that maps to index i is invalid, the global
cycle keeps the value -1 stored at i in both rasters. -/
theorem globalCycle_keeps (q : GlobalParams) (s : GlobalSubs) (cells : List Cell) (i : ℕ)
    (hW : ∀ c ∈ cells, globalCellIndex q c = some i → c.valid = false) :
    ∀ b : Bufs, b.heightData[i]? = some (-1) → b.costData[i]? = some (-1) →
      (globalCycle q s cells b).heightData[i]? = some (-1) ∧
      (globalCycle q s cells b).costData[i]? = some (-1) := by
  induction cells with
  | nil => intro b h1 h2; exact ⟨h1, h2⟩
  | cons c cs ih =>
    intro b h1 h2
    have hW2 : ∀ c2 ∈ cs, globalCellIndex q c2 = some i → c2.valid = false :=
      fun c2 hm => hW c2 (List.mem_cons_of_mem _ hm)
    simp only [globalCycle, List.foldl_cons] at ih ⊢
    by_cases hc : globalCellIndex q c = some i
    · have hv : c.valid = false := hW c (List.mem_cons_self _ _) hc
      have hlen1 : i < b.heightData.length := by
        by_contra hn
        simp [List.getElem?_eq_none (Nat.le_of_not_lt hn)] at h1
      have hlen2 : i < b.costData.length := by
        by_contra hn
        simp [List.getElem?_eq_none (Nat.le_of_not_lt hn)] at h2
      refine ih hW2 _ ?_ ?_
      · simp [globalCellStep, hc, globHeightNorm, hv, List.getElem?_set_eq_of_lt _ hlen1]
      · simp [globalCellStep, hc, globCostNorm, hv, List.getElem?_set_eq_of_lt _ hlen2]
    · have hk := globalCellStep_keeps q s b c i hc
      exact ih hW2 _ (hk.1.trans h1) (hk.2.trans h2)



/-- The local per-cell step does not disturb raster entries at indices
the cell does not map to. -/
theorem localCellStep_keeps (p : LocalParams) (s : LocalSubs) (b : Bufs) (c : Cell)
    (i : ℕ) (h : localCellIndex p c ≠ some i) :
    (localCellStep p s b c).heightData[i]? = b.heightData[i]? ∧
    (localCellStep p s b c).costData[i]? = b.costData[i]? := by
  cases hidx : localCellIndex p c with
  | none => simp [localCellStep, hidx]
  | some j =>
    have hj : j ≠ i := fun e => h (e ▸ hidx)
    constructor
    · simp only [localCellStep, hidx]
      split <;> simp [List.getElem?_set_ne hj]
    · simp only [localCellStep, hidx]
      split <;> simp [List.getElem?_set_ne hj]

/-- When no cell of a list maps to index i, the local fold keeps the
raster values stored at i. -/
theorem localFold_keeps (p : LocalParams) (s : LocalSubs) (cells : List Cell) (i : ℕ)
    (hW : ∀ c ∈ cells, localCellIndex p c ≠ some i) :
    ∀ b : Bufs, (cells.foldl (localCellStep p s) b).heightData[i]? = b.heightData[i]? ∧
      (cells.foldl (localCellStep p s) b).costData[i]? = b.costData[i]? := by
  induction cells with
  | nil => intro b; exact ⟨rfl, rfl⟩
  | cons c cs ih =>
    intro b
    have hW2 : ∀ c2 ∈ cs, localCellIndex p c2 ≠ some i :=
      fun c2 hm => hW c2 (List.mem_cons_of_mem _ hm)
    have hk := localCellStep_keeps p s b c i (hW c (List.mem_cons_self _ _))
    simp only [List.foldl_cons]
    have h2 := ih hW2 (localCellStep p s b c)
    exact ⟨h2.1.trans hk.1, h2.2.trans hk.2⟩

/-- Claim C8: an invalid cell always ends the cycle with -1 stored at its
raster index in both the height and cost rasters.  On the local path both
rasters are freshly reset to -1 and invalid cells are skipped, so any
index no processed cell writes to still holds -1 after the cycle; on the
global path, where the buffers persist, a processed invalid cell
overwrites any leftover value at its in-range index with -1 in both
rasters (provided every processed cell mapping to that index is invalid,
as cells legitimately have distinct indices). -/
theorem C8_invalid_cell_unknown :
    (∀ (p : LocalParams) (s : LocalSubs) (cells : List Cell) (pcInit : List (Option ℚ))
      (i : ℕ), i < totCell p → (∀ c ∈ cells, localCellIndex p c ≠ some i) →
      (localCycle p s cells pcInit).heightData[i]? = some (-1) ∧
      (localCycle p s cells pcInit).costData[i]? = some (-1)) ∧
    (∀ (q : GlobalParams) (s : GlobalSubs) (cells : List Cell) (b : Bufs) (c : Cell)
      (i : ℕ), c ∈ cells → c.valid = false → globalCellIndex q c = some i →
      (∀ c2 ∈ cells, globalCellIndex q c2 = some i → c2.valid = false) →
      i < b.heightData.length → i < b.costData.length →
      (globalCycle q s cells b).heightData[i]? = some (-1) ∧
      (globalCycle q s cells b).costData[i]? = some (-1)) := by
  constructor
  · intro p s cells pcInit i hi hW
    have hk := localFold_keeps p s cells i hW
      { heightData := List.replicate (totCell p) (-1)
        costData := List.replicate (totCell p) (-1)
        pcData := pcInit, cubes := [], boxes := [] }
    simp only [localCycle]
    rw [hk.1, hk.2]
    simp [List.getElem?_replicate, hi]
  · intro q s cells b c i hmem hv hidx hW hl1 hl2
    obtain ⟨l1, l2, rfl⟩ := List.append_of_mem hmem
    have hW2 : ∀ c2 ∈ l2, globalCellIndex q c2 = some i → c2.valid = false := by
      intro c2 hm
      exact hW c2 (List.mem_append.mpr (Or.inr (List.mem_cons_of_mem _ hm)))
    simp only [globalCycle, List.foldl_append, List.foldl_cons]
    set b1 := l1.foldl (globalCellStep q s) b with hb1
    have hlen := globalCycle_length q s l1 b
    simp only [globalCycle] at hlen
    have hlen1 : i < b1.heightData.length := by rw [hb1, hlen.1]; exact hl1
    have hlen2 : i < b1.costData.length := by rw [hb1, hlen.2]; exact hl2
    have hkeep := globalCycle_keeps q s l2 i hW2 (globalCellStep q s b1 c) ?_ ?_
    · simpa only [globalCycle] using hkeep
    · simp [globalCellStep, hidx, globHeightNorm, hv, List.getElem?_set_eq_of_lt _ hlen1]
    · simp [globalCellStep, hidx, globCostNorm, hv, List.getElem?_set_eq_of_lt _ hlen2]

theorem C8_invalid_cell_unknown_witness :
    (localCycle lpTiny subsAllLocal [cellInvalid] []).heightData[0]? = some (-1) ∧
    (globalCycle gpTiny subsHeightOnly [cellInvalid] bufsStale).heightData[0]? = some (-1) ∧
    (globalCycle gpTiny subsHeightOnly [cellInvalid] bufsStale).costData[0]? = some (-1) := by
  have hidxL : localCellIndex lpTiny cellInvalid = none := by
    norm_num [localCellIndex, cellInvalid]
  have hidxG : globalCellIndex gpTiny cellInvalid = some 0 := by
    norm_num [globalCellIndex, i32Of, cround, gpTiny, cellInvalid]
  have hL := (C8_invalid_cell_unknown.1 lpTiny subsAllLocal [cellInvalid] [] 0
    (by norm_num [totCell, lpTiny])
    (by intro c hm; simp at hm; subst hm; simp [hidxL]))
  have hG := C8_invalid_cell_unknown.2 gpTiny subsHeightOnly [cellInvalid] bufsStale
    cellInvalid 0 (by simp) rfl hidxG
    (by intro c2 hm; simp at hm; subst hm; intro _; rfl)
    (by norm_num [bufsStale]) (by norm_num [bufsStale])
  exact ⟨hL.1, hG.1, hG.2⟩



/-- Each extension step only lowers the minima and raises the maxima, and
covers the chunk dimension it absorbs. -/
theorem extendBounds_le (bf : Bounds × Bool) (d : Bounds) :
    (extendBounds bf d).1.xMin ≤ bf.1.xMin ∧ (extendBounds bf d).1.xMin ≤ d.xMin ∧
    (extendBounds bf d).1.yMin ≤ bf.1.yMin ∧ (extendBounds bf d).1.yMin ≤ d.yMin ∧
    bf.1.xMax ≤ (extendBounds bf d).1.xMax ∧ d.xMax ≤ (extendBounds bf d).1.xMax ∧
    bf.1.yMax ≤ (extendBounds bf d).1.yMax ∧ d.yMax ≤ (extendBounds bf d).1.yMax := by
  simp only [extendBounds]
  refine ⟨?_, ?_, ?_, ?_, ?_, ?_, ?_, ?_⟩ <;> dsimp only <;> split <;> linarith

/-- The bounds fold only lowers the minima and raises the maxima of its
starting accumulator, and covers every chunk dimension in the list. -/
theorem foldl_extendBounds_le (ds : List Bounds) :
    ∀ bf : Bounds × Bool,
      (ds.foldl extendBounds bf).1.xMin ≤ bf.1.xMin ∧
      (ds.foldl extendBounds bf).1.yMin ≤ bf.1.yMin ∧
      bf.1.xMax ≤ (ds.foldl extendBounds bf).1.xMax ∧
      bf.1.yMax ≤ (ds.foldl extendBounds bf).1.yMax ∧
      ∀ d ∈ ds, (ds.foldl extendBounds bf).1.xMin ≤ d.xMin ∧
        (ds.foldl extendBounds bf).1.yMin ≤ d.yMin ∧
        d.xMax ≤ (ds.foldl extendBounds bf).1.xMax ∧
        d.yMax ≤ (ds.foldl extendBounds bf).1.yMax := by
  induction ds with
  | nil => intro bf; refine ⟨le_refl _, le_refl _, le_refl _, le_refl _, ?_⟩; simp
  | cons d ds ih =>
    intro bf
    have he := extendBounds_le bf d
    have hi := ih (extendBounds bf d)
    simp only [List.foldl_cons] at hi ⊢
    obtain ⟨i1, i2, i3, i4, i5⟩ := hi
    refine ⟨by linarith [he.1], by linarith [he.2.2.1], by linarith [he.2.2.2.2.1],
      by linarith [he.2.2.2.2.2.2.1], ?_⟩
    intro d2 hm
    rcases List.mem_cons.mp hm with h | h
    · subst h
      exact ⟨by linarith [he.2.1], by linarith [he.2.2.2.1],
        by linarith [he.2.2.2.2.2.1], by linarith [he.2.2.2.2.2.2.2]⟩
    · exact i5 d2 h

/-- The fields of the reinitialized global messages, common to every
point-cloud resize branch. -/
theorem initGlobalMapMsgs_fields (g : GlobMapState) (mapWm mapHm : ℚ) :
    (initGlobalMapMsgs g mapWm mapHm).width = u32 ⌈mapWm / g.res⌉ + 1 ∧
    (initGlobalMapMsgs g mapWm mapHm).height = u32 ⌈mapHm / g.res⌉ + 1 ∧
    (initGlobalMapMsgs g mapWm mapHm).res = g.res ∧
    (initGlobalMapMsgs g mapWm mapHm).heightData =
      List.replicate ((u32 ⌈mapHm / g.res⌉ + 1) * (u32 ⌈mapWm / g.res⌉ + 1) % 2 ^ 32) (-1) ∧
    (initGlobalMapMsgs g mapWm mapHm).costData =
      List.replicate ((u32 ⌈mapHm / g.res⌉ + 1) * (u32 ⌈mapWm / g.res⌉ + 1) % 2 ^ 32) (-1) ∧
    (initGlobalMapMsgs g mapWm mapHm).wholeUpdate = true := by
  simp only [initGlobalMapMsgs]
  split
  · split
    · exact ⟨rfl, rfl, rfl, rfl, rfl, rfl⟩
    · split
      · exact ⟨rfl, rfl, rfl, rfl, rfl, rfl⟩
      · exact ⟨rfl, rfl, rfl, rfl, rfl, rfl⟩
  · exact ⟨rfl, rfl, rfl, rfl, rfl, rfl⟩

/-- A span is covered by its cell count times the resolution: span at
nonnegative length, positive resolution and a non-wrapping ceiling give
span at most (u32 of ceiling of span over res, plus one) cells of size
res. -/
theorem span_le_cells (span res : ℚ) (h0 : 0 ≤ span) (hres : 0 < res)
    (hlt : ⌈span / res⌉ < 2 ^ 32) :
    span ≤ ((u32 ⌈span / res⌉ + 1 : ℕ) : ℚ) * res := by
  have hc0 : 0 ≤ ⌈span / res⌉ := Int.ceil_nonneg (div_nonneg h0 hres.le)
  have hu : u32 ⌈span / res⌉ = (⌈span / res⌉).toNat := by
    simp only [u32, Int.emod_eq_of_lt hc0 hlt]
  rw [hu]
  have htn : (((⌈span / res⌉).toNat : ℤ) : ℚ) = ((⌈span / res⌉ : ℤ) : ℚ) := by
    rw [Int.toNat_of_nonneg hc0]
  have hcast : (((⌈span / res⌉).toNat + 1 : ℕ) : ℚ) = ((⌈span / res⌉ : ℚ) + 1) := by
    push_cast
    push_cast at htn
    rw [htn]
  rw [hcast]
  have hceil : span / res ≤ (⌈span / res⌉ : ℚ) := Int.le_ceil _
  have h1 : span / res * res ≤ ((⌈span / res⌉ : ℚ) + 1) * res := by
    have : span / res ≤ (⌈span / res⌉ : ℚ) + 1 := by linarith
    exact mul_le_mul_of_nonneg_right this hres.le
  calc span = span / res * res := by field_simp
    _ ≤ _ := h1



/-- Claim C5 (amended): when a selected chunk's bounds exceed the current
global raster bounds, the resize step re-selects all valid chunks, ends
the cycle with the whole-update flag cleared, reallocates both rasters
fully reset to -1, and the new raster's world bounds are a superset of
the union of the previous bounds and every selected chunk's bounds.  The
point buffer is only resized (keeping its existing prefix), not reset. -/
theorem C5_global_resize (g : GlobMapState) (snap : TerrainSnap) (selDims : List Bounds)
    (selKeys : List ℕ) (hres : 0 < g.res)
    (hflag : (chunkBounds g selDims).2 = true)
    (hcY : ⌈((chunkBounds g selDims).1.yMax - (chunkBounds g selDims).1.yMin) / g.res⌉ < 2 ^ 32)
    (hcX : ⌈((chunkBounds g selDims).1.xMax - (chunkBounds g selDims).1.xMin) / g.res⌉ < 2 ^ 32) :
    (globalResizeStep g snap selDims selKeys).2 = snap.allValid ∧
    (globalResizeStep g snap selDims selKeys).1.wholeUpdate = false ∧
    (globalResizeStep g snap selDims selKeys).1.heightData =
      List.replicate ((globalResizeStep g snap selDims selKeys).1.height *
        (globalResizeStep g snap selDims selKeys).1.width % 2 ^ 32) (-1) ∧
    (globalResizeStep g snap selDims selKeys).1.costData =
      List.replicate ((globalResizeStep g snap selDims selKeys).1.height *
        (globalResizeStep g snap selDims selKeys).1.width % 2 ^ 32) (-1) ∧
    (globalResizeStep g snap selDims selKeys).1.originX ≤ g.originX ∧
    g.originX + (g.width : ℚ) * g.res ≤
      (globalResizeStep g snap selDims selKeys).1.originX +
        ((globalResizeStep g snap selDims selKeys).1.width : ℚ) *
          (globalResizeStep g snap selDims selKeys).1.res ∧
    (globalResizeStep g snap selDims selKeys).1.originY ≤ g.originY ∧
    g.originY + (g.height : ℚ) * g.res ≤
      (globalResizeStep g snap selDims selKeys).1.originY +
        ((globalResizeStep g snap selDims selKeys).1.height : ℚ) *
          (globalResizeStep g snap selDims selKeys).1.res ∧
    ∀ d ∈ selDims,
      (globalResizeStep g snap selDims selKeys).1.originX ≤ d.yMin ∧
      d.yMax ≤ (globalResizeStep g snap selDims selKeys).1.originX +
        ((globalResizeStep g snap selDims selKeys).1.width : ℚ) *
          (globalResizeStep g snap selDims selKeys).1.res ∧
      (globalResizeStep g snap selDims selKeys).1.originY ≤ -d.xMax ∧
      -d.xMin ≤ (globalResizeStep g snap selDims selKeys).1.originY +
        ((globalResizeStep g snap selDims selKeys).1.height : ℚ) *
          (globalResizeStep g snap selDims selKeys).1.res := by
  have hstep : globalResizeStep g snap selDims selKeys =
      ({ initGlobalMapMsgs g ((chunkBounds g selDims).1.yMax - (chunkBounds g selDims).1.yMin)
           ((chunkBounds g selDims).1.xMax - (chunkBounds g selDims).1.xMin) with
         wholeUpdate := false, originX := (chunkBounds g selDims).1.yMin,
         originY := -(chunkBounds g selDims).1.xMax }, snap.allValid) := by
    simp only [globalResizeStep, hflag, if_true]
  have hfields := initGlobalMapMsgs_fields g
    ((chunkBounds g selDims).1.yMax - (chunkBounds g selDims).1.yMin)
    ((chunkBounds g selDims).1.xMax - (chunkBounds g selDims).1.xMin)
  have hfold := foldl_extendBounds_le selDims (initBounds g, false)
  simp only [chunkBounds] at hflag hcY hcX hfields ⊢
  rw [hstep]
  simp only [chunkBounds]
  set b := (selDims.foldl extendBounds (initBounds g, false)).1 with hb
  have hib1 : (initBounds g).yMin = g.originX := rfl
  have hib2 : (initBounds g).yMax = g.originX + (g.width : ℚ) * g.res := rfl
  have hib3 : (initBounds g).xMax = -g.originY := by
    simp [initBounds]
  have hib4 : (initBounds g).xMin = -(g.originY + (g.height : ℚ) * g.res) := by
    simp [initBounds]
  have hwr : (0:ℚ) ≤ (g.width : ℚ) * g.res := by positivity
  have hhr : (0:ℚ) ≤ (g.height : ℚ) * g.res := by positivity
  have hy0 : 0 ≤ b.yMax - b.yMin := by
    have h1 := hfold.2.1
    have h2 := hfold.2.2.2.1
    rw [hib1] at h1; rw [hib2] at h2
    linarith
  have hx0 : 0 ≤ b.xMax - b.xMin := by
    have h1 := hfold.1
    have h2 := hfold.2.2.1
    rw [hib4] at h1; rw [hib3] at h2
    linarith
  have hY := span_le_cells (b.yMax - b.yMin) g.res hy0 hres hcY
  have hX := span_le_cells (b.xMax - b.xMin) g.res hx0 hres hcX
  refine ⟨trivial, trivial, ?_, ?_, ?_, ?_, ?_, ?_, ?_⟩
  · rw [hfields.2.2.2.1, hfields.1, hfields.2.1]
  · rw [hfields.2.2.2.2.1, hfields.1, hfields.2.1]
  · show b.yMin ≤ g.originX
    have := hfold.2.1
    rwa [hib1] at this
  · show g.originX + (g.width : ℚ) * g.res ≤
      b.yMin + ((initGlobalMapMsgs g (b.yMax - b.yMin) (b.xMax - b.xMin)).width : ℚ) *
        (initGlobalMapMsgs g (b.yMax - b.yMin) (b.xMax - b.xMin)).res
    rw [hfields.1, hfields.2.2.1]
    have h2 := hfold.2.2.2.1
    rw [hib2] at h2
    linarith
  · show -b.xMax ≤ g.originY
    have := hfold.2.2.1
    rw [hib3] at this
    linarith
  · show g.originY + (g.height : ℚ) * g.res ≤
      -b.xMax + ((initGlobalMapMsgs g (b.yMax - b.yMin) (b.xMax - b.xMin)).height : ℚ) *
        (initGlobalMapMsgs g (b.yMax - b.yMin) (b.xMax - b.xMin)).res
    rw [hfields.2.1, hfields.2.2.1]
    have h1 := hfold.1
    rw [hib4] at h1
    linarith
  · intro d hd
    have hds := hfold.2.2.2.2 d hd
    refine ⟨hds.2.1, ?_, ?_, ?_⟩
    · show d.yMax ≤ b.yMin + ((initGlobalMapMsgs g (b.yMax - b.yMin) (b.xMax - b.xMin)).width : ℚ) *
        (initGlobalMapMsgs g (b.yMax - b.yMin) (b.xMax - b.xMin)).res
      rw [hfields.1, hfields.2.2.1]
      have := hds.2.2.2
      linarith
    · show -b.xMax ≤ -d.xMax
      have := hds.2.2.1
      linarith
    · show -d.xMin ≤ -b.xMax + ((initGlobalMapMsgs g (b.yMax - b.yMin) (b.xMax - b.xMin)).height : ℚ) *
        (initGlobalMapMsgs g (b.yMax - b.yMin) (b.xMax - b.xMin)).res
      rw [hfields.2.1, hfields.2.2.1]
      have := hds.1
      linarith



/-- Claim C5 counterexample: in a resize cycle forced by a protruding
chunk, the reallocated point buffer still holds the leftover value 7 in
its first float, so it is not reset to unknown (-1) as the claim
states. -/
theorem C5_point_buffer_not_reset :
    (chunkBounds globStale [dimProtruding]).2 = true ∧
    (globalResizeStep globStale snapTwo [dimProtruding] [99]).1.pcData.headI = some 7 ∧
    some (7:ℚ) ≠ some (-1:ℚ) := by
  refine ⟨?_, ?_, by norm_num⟩
  · norm_num [chunkBounds, initBounds, extendBounds, globStale, dimProtruding]
  · norm_num [globalResizeStep, chunkBounds, initBounds, extendBounds, initGlobalMapMsgs,
      u32, globStale, dimProtruding, snapTwo]
    decide

theorem C5_global_resize_witness :
    (chunkBounds globStale [dimProtruding]).2 = true ∧
    (globalResizeStep globStale snapTwo [dimProtruding] [99]).2 = snapTwo.allValid ∧
    (globalResizeStep globStale snapTwo [dimProtruding] [99]).1.wholeUpdate = false := by
  have hflag : (chunkBounds globStale [dimProtruding]).2 = true := by
    norm_num [chunkBounds, initBounds, extendBounds, globStale, dimProtruding]
  have hcY : ⌈((chunkBounds globStale [dimProtruding]).1.yMax -
      (chunkBounds globStale [dimProtruding]).1.yMin) / globStale.res⌉ < 2 ^ 32 := by
    norm_num [chunkBounds, initBounds, extendBounds, globStale, dimProtruding]
  have hcX : ⌈((chunkBounds globStale [dimProtruding]).1.xMax -
      (chunkBounds globStale [dimProtruding]).1.xMin) / globStale.res⌉ < 2 ^ 32 := by
    norm_num [chunkBounds, initBounds, extendBounds, globStale, dimProtruding]
  have h := C5_global_resize globStale snapTwo [dimProtruding] [99]
    (by norm_num [globStale]) hflag hcY hcX
  exact ⟨hflag, h.1, h.2.1⟩


end ZedTM
